import Mathlib

/-!
Shallow embedding of the libadblockplus core (value handles over an embedded
scripting runtime, plus the asynchronous module-bootstrap machinery) and
proofs about it.

The embedding follows `src/src/JsValue.cpp` for every `JsValue` operation.
The embedded V8 engine is external to the repository; its documented
semantics (type predicates, property lookup, numeric coercion returning an
empty `Maybe` when a pending exception exists, persistent handles) are
modelled by an explicit heap of runtime objects.  Numeric payloads are
modelled as `Int`: the claims under scrutiny concern failure conditions and
sharing, not floating-point rounding.
-/

namespace AdblockPlus

/-- A V8 value as seen through a `v8::Local<v8::Value>`: primitives are
immediate, every object (plain object, array, function, primitive wrapper)
lives in the heap and is referred to by address. -/
inductive V8Value where
  | undefined
  | nullValue
  | boolean (b : Bool)
  | number (n : Int)
  | str (s : String)
  | obj (addr : Nat)
deriving DecidableEq, Repr

/-- Outcome of invoking a script function: it either produces a value or
raises inside the runtime with a message (the script body itself is opaque
to the native core, so it is modelled by its observable outcome). -/
inductive FnBehavior where
  | returns (v : V8Value)
  | throwsError (message : String)
deriving DecidableEq, Repr

/-- The kind of a heap-resident runtime object. -/
inductive ObjKind where
  | plain
  | arrayObj (elems : List V8Value)
  | functionObj (behavior : FnBehavior)
  | stringObject (s : String)
  | numberObject (n : Int)
  | booleanObject (b : Bool)
deriving DecidableEq, Repr

/-- A heap-resident runtime object: its kind, its named properties, and the
result of the engine running numeric coercion (`ToNumber`) on it —
`none` models a coercion (e.g. a `valueOf`) that throws, leaving a pending
exception in the engine. -/
structure HeapObj where
  kind : ObjKind
  props : List (String × V8Value)
  numCoercion : Option Int
deriving DecidableEq, Repr

/-- The runtime heap: objects addressed by index.  The model never
deallocates (garbage collection is invisible to the claims). -/
abbrev Heap := List HeapObj

/-- V8's `value->IsString()`: string primitives only. -/
def v8IsString : V8Value → Bool
  | .str _ => true
  | _ => false

/-- V8's `value->IsStringObject()`: `String` wrapper objects. -/
def v8IsStringObject (h : Heap) : V8Value → Bool
  | .obj a =>
    match h[a]? with
    | some o =>
      match o.kind with
      | .stringObject _ => true
      | _ => false
    | none => false
  | _ => false

/-- V8's `value->IsNumber()`: number primitives only. -/
def v8IsNumber : V8Value → Bool
  | .number _ => true
  | _ => false

/-- V8's `value->IsNumberObject()`: `Number` wrapper objects. -/
def v8IsNumberObject (h : Heap) : V8Value → Bool
  | .obj a =>
    match h[a]? with
    | some o =>
      match o.kind with
      | .numberObject _ => true
      | _ => false
    | none => false
  | _ => false

/-- V8's `value->IsBoolean()`: boolean primitives only. -/
def v8IsBoolean : V8Value → Bool
  | .boolean _ => true
  | _ => false

/-- V8's `value->IsBooleanObject()`: `Boolean` wrapper objects. -/
def v8IsBooleanObject (h : Heap) : V8Value → Bool
  | .obj a =>
    match h[a]? with
    | some o =>
      match o.kind with
      | .booleanObject _ => true
      | _ => false
    | none => false
  | _ => false

/-- V8's `value->IsObject()`: anything heap-resident (plain objects, arrays,
functions, primitive wrappers). -/
def v8IsObject : V8Value → Bool
  | .obj _ => true
  | _ => false

/-- V8's `value->IsArray()`. -/
def v8IsArray (h : Heap) : V8Value → Bool
  | .obj a =>
    match h[a]? with
    | some o =>
      match o.kind with
      | .arrayObj _ => true
      | _ => false
    | none => false
  | _ => false

/-- V8's `value->IsFunction()`. -/
def v8IsFunction (h : Heap) : V8Value → Bool
  | .obj a =>
    match h[a]? with
    | some o =>
      match o.kind with
      | .functionObj _ => true
      | _ => false
    | none => false
  | _ => false

/-- Error taxonomy of the native surface (spec section 7): `TypeError` for a
wrong handle kind, `ConversionError` when engine-side coercion left a
pending exception, `ScriptError` when an invoked function raised inside
the runtime. -/
inductive ErrKind where
  | typeError
  | conversionError
  | scriptError
deriving DecidableEq, Repr

/-- A failure surfaced to the native caller: its kind and descriptive text. -/
structure JsErr where
  kind : ErrKind
  message : String
deriving DecidableEq, Repr

/-- JsValue::IsString (JsValue.cpp): `value->IsString() || value->IsStringObject()`. -/
def jsIsString (h : Heap) (w : V8Value) : Bool :=
  v8IsString w || v8IsStringObject h w

/-- JsValue::IsNumber (JsValue.cpp): `value->IsNumber() || value->IsNumberObject()`. -/
def jsIsNumber (h : Heap) (w : V8Value) : Bool :=
  v8IsNumber w || v8IsNumberObject h w

/-- JsValue::IsBool (JsValue.cpp): `value->IsBoolean() || value->IsBooleanObject()`. -/
def jsIsBool (h : Heap) (w : V8Value) : Bool :=
  v8IsBoolean w || v8IsBooleanObject h w

/-- JsValue::IsUndefined (JsValue.cpp). -/
def jsIsUndefined (w : V8Value) : Bool :=
  match w with
  | .undefined => true
  | _ => false

/-- Numeric coercion of a heap object, as the engine performs it: wrapper
objects unwrap; any other object runs its (possibly throwing) `ToNumber`
behaviour, recorded in `numCoercion`. -/
def objToNumber (o : HeapObj) : Option Int :=
  match o.kind with
  | .numberObject n => some n
  | .booleanObject b => some (if b then 1 else 0)
  | .stringObject s => some (s.toInt?.getD 0)
  | _ => o.numCoercion

/-- V8's `value->IntegerValue(context)` / `value->NumberValue(context)`:
a `Maybe` that is empty exactly when coercion raised a pending exception.
Primitives always coerce; only heap objects can throw.  (Both V8 calls run
`ToNumber`; they differ only in truncation, which the integer model
collapses.) -/
def v8ToNumber (h : Heap) (w : V8Value) : Option Int :=
  match w with
  | .undefined => some 0
  | .nullValue => some 0
  | .boolean b => some (if b then 1 else 0)
  | .number n => some n
  | .str s => some (s.toInt?.getD 0)
  | .obj a =>
    match h[a]? with
    | some o => objToNumber o
    | none => none

/-- JsValue::AsInt (JsValue.cpp): `CHECKED_TO_VALUE(UnwrapValue()->IntegerValue(ctx))`.
Modelled from the spec: the `CHECKED_TO_VALUE` macro (JsError.h, not in the
sample) surfaces an empty engine `Maybe` as a `ConversionError`-kind
condition. -/
def asInt (h : Heap) (w : V8Value) : Except JsErr Int :=
  match v8ToNumber h w with
  | some n => .ok n
  | none => .error ⟨.conversionError, "conversion failed"⟩

/-- JsValue::AsDouble (JsValue.cpp): `CHECKED_TO_VALUE(UnwrapValue()->NumberValue(ctx))`.
Modelled from the spec: `CHECKED_TO_VALUE` as in `asInt`. -/
def asDouble (h : Heap) (w : V8Value) : Except JsErr Int :=
  match v8ToNumber h w with
  | some n => .ok n
  | none => .error ⟨.conversionError, "conversion failed"⟩

/-- JsValue::AsList (JsValue.cpp): throws a `TypeError`-kind condition when
the receiver is not an array, otherwise collects the array's elements. -/
def asList (h : Heap) (w : V8Value) : Except JsErr (List V8Value) :=
  match w with
  | .obj a =>
    match h[a]? with
    | some o =>
      match o.kind with
      | .arrayObj es => .ok es
      | _ => .error ⟨.typeError, "Cannot convert a non-array to list"⟩
    | none => .error ⟨.typeError, "Cannot convert a non-array to list"⟩
  | _ => .error ⟨.typeError, "Cannot convert a non-array to list"⟩

/-- Property lookup on a heap object, per runtime semantics: named
properties first, then array indices for arrays; a miss is `none` (the
engine will answer `undefined`, not fail). -/
def lookupProp (o : HeapObj) (name : String) : Option V8Value :=
  match o.props.lookup name with
  | some v => some v
  | none =>
    match o.kind with
    | .arrayObj es =>
      match name.toNat? with
      | some i => es[i]?
      | none => none
    | _ => none

/-- JsValue::GetProperty (JsValue.cpp): `TypeError`-kind when the receiver
is not an object; a key never set yields the runtime's `undefined`, not a
failure. -/
def getProperty (h : Heap) (w : V8Value) (name : String) : Except JsErr V8Value :=
  match w with
  | .obj a =>
    match h[a]? with
    | some o =>
      match lookupProp o name with
      | some v => .ok v
      | none => .ok .undefined
    | none => .error ⟨.typeError, "Attempting to get property of a non-object"⟩
  | _ => .error ⟨.typeError, "Attempting to get property of a non-object"⟩

/-- Replacement in an association list of properties (the runtime's
property store). -/
def setAssoc (ps : List (String × V8Value)) (k : String) (v : V8Value) :
    List (String × V8Value) :=
  match ps with
  | [] => [(k, v)]
  | (k', v') :: rest =>
    if k' = k then (k, v) :: rest else (k', v') :: setAssoc rest k v

/-- JsValue::SetProperty (JsValue.cpp): `TypeError`-kind when the receiver
is not an object; otherwise mutates the shared heap object in place. -/
def setProperty (h : Heap) (w : V8Value) (name : String) (val : V8Value) :
    Except JsErr Heap :=
  match w with
  | .obj a =>
    match h[a]? with
    | some o =>
      .ok (h.set a { o with props := setAssoc o.props name val })
    | none => .error ⟨.typeError, "Attempting to set property on a non-object"⟩
  | _ => .error ⟨.typeError, "Attempting to set property on a non-object"⟩

/-- JsValue::GetOwnPropertyNames (JsValue.cpp): `TypeError`-kind when the
receiver is not an object; otherwise the receiver's own property names
(array indices first for arrays, as the runtime reports them). -/
def getOwnPropertyNames (h : Heap) (w : V8Value) : Except JsErr (List String) :=
  match w with
  | .obj a =>
    match h[a]? with
    | some o =>
      match o.kind with
      | .arrayObj es => .ok ((List.range es.length).map toString ++ o.props.map Prod.fst)
      | _ => .ok (o.props.map Prod.fst)
    | none => .error ⟨.typeError, "Attempting to get propert list for a non-object"⟩
  | _ => .error ⟨.typeError, "Attempting to get propert list for a non-object"⟩

/-- Behaviour of a handle under invocation: `some` when the value is a
function in the heap. -/
def fnBehavior (h : Heap) (w : V8Value) : Option FnBehavior :=
  match w with
  | .obj a =>
    match h[a]? with
    | some o =>
      match o.kind with
      | .functionObj beh => some beh
      | _ => none
    | none => none
  | _ => none

/-- JsValue::Call (JsValue.cpp, private overload): `TypeError`-kind when the
handle is not callable, then `TypeError`-kind when the receiver is not an
object; an exception raised inside the runtime is caught by the `TryCatch`
and re-surfaced as a `ScriptError`-kind condition carrying the script's
message text (per `CHECKED_TO_LOCAL_WITH_TRY_CATCH`, modelled from the
spec since JsError.h is not in the sample). -/
def call (h : Heap) (w : V8Value) (thisVal : V8Value) : Except JsErr V8Value :=
  match fnBehavior h w with
  | none => .error ⟨.typeError, "Attempting to call a non-function"⟩
  | some beh =>
    if v8IsObject thisVal then
      match beh with
      | .returns v => .ok v
      | .throwsError msg => .error ⟨.scriptError, msg⟩
    else .error ⟨.typeError, "`this` pointer has to be an object"⟩

/-- The native-visible runtime state: the object heap, the storage cells of
the `v8::Global` persistent handles (a cell is `none` once that global has
been reset or before it is created), and which isolates are still alive
(`isolate_->Get()` returns null once the engine is torn down). -/
structure Runtime where
  heap : Heap
  globals : List (Option V8Value)
  aliveIsolates : List Nat
deriving DecidableEq, Repr

/-- The fields of `AdblockPlus::JsValue` (JsValue.cpp): `isolate_` (null
after being moved from), `jsContext_`, and `value_`, the `v8::Global`
persistent reference, modelled as the index of its storage cell among the
runtime's globals (`none` when the global is empty). -/
structure JsValue where
  isolate : Option Nat
  jsContext : Option Nat
  slot : Option Nat
deriving DecidableEq, Repr

/-- JsValue::UnwrapValue (JsValue.cpp): the `v8::Local` for the handle's
persistent reference; `none` when the global is empty (an operation on it
would be undefined behaviour, so theorems assume validity). -/
def JsValue.unwrapValue (rt : Runtime) (v : JsValue) : Option V8Value :=
  match v.slot with
  | none => none
  | some s => (rt.globals[s]?).getD none

/-- JsValue::operator=(const JsValue&) (JsValue.cpp): copies `isolate_` and
`jsContext_`, and builds a NEW `v8::Global` (a fresh storage cell) that
references the same underlying value as the source's global.  The copy
constructor delegates to this. -/
def copyAssign (rt : Runtime) (src : JsValue) : Runtime × JsValue :=
  match src.unwrapValue rt with
  | none =>
    (rt, { isolate := src.isolate, jsContext := src.jsContext, slot := none })
  | some w =>
    ({ rt with globals := rt.globals ++ [some w] },
     { isolate := src.isolate, jsContext := src.jsContext,
       slot := some rt.globals.length })

/-- JsValue::operator=(JsValue&&) (JsValue.cpp): takes over `isolate_`,
`jsContext_` and the global itself (the same storage cell moves across,
`v8::Global`'s move leaves the source empty), and nulls the source's
`isolate_` and `jsContext_`.  The move constructor delegates to this.
Returns (destination, moved-from source). -/
def moveAssign (src : JsValue) : JsValue × JsValue :=
  ({ isolate := src.isolate, jsContext := src.jsContext, slot := src.slot },
   { isolate := none, jsContext := none, slot := none })

/-- Resetting a `v8::Global` clears its storage cell (the heap object, if
any, is untouched — other globals keep referencing it). -/
def resetSlot (rt : Runtime) : Option Nat → Runtime
  | none => rt
  | some s => { rt with globals := rt.globals.set s none }

/-- JsValue::~JsValue (JsValue.cpp): when `isolate_` is null (moved-from),
nothing happens; when the isolate is still alive, a `JsContext` is entered
and `value_.Reset()` releases the persistent reference; when the isolate is
already torn down (`isolate_->Get()` null), the release is silently
skipped — no runtime operation at all, the global's cell is leaked.
Returns (runtime, updated handle fields, whether a runtime operation —
context entry plus release — was performed). -/
def destroy (rt : Runtime) (v : JsValue) : Runtime × JsValue × Bool :=
  match v.isolate with
  | none => (rt, v, false)
  | some iso =>
    if rt.aliveIsolates.contains iso then
      (resetSlot rt v.slot, { v with slot := none }, true)
    else
      (rt, v, false)

/-- Handle-level GetProperty: unwrap the persistent reference, then run the
property read against the current heap. -/
def JsValue.getPropertyH (rt : Runtime) (v : JsValue) (name : String) :
    Option (Except JsErr V8Value) :=
  (v.unwrapValue rt).map (fun w => getProperty rt.heap w name)

/-- Handle-level SetProperty: unwrap the persistent reference, then run the
property write, yielding the updated runtime. -/
def JsValue.setPropertyH (rt : Runtime) (v : JsValue) (name : String) (val : V8Value) :
    Option (Except JsErr Runtime) :=
  (v.unwrapValue rt).map (fun w =>
    (setProperty rt.heap w name val).map (fun h => { rt with heap := h }))

/-! Module bootstrap (DefaultPlatform).  `src/src/DefaultPlatform.h`
declares `CreateFilterEngineAsync`, the `modulesMutex_` guarding module
creation, the `std::shared_future` holding the eventual filter engine, and
the evaluated-sources set with its own `evaluatedJsSourcesMutex_`; the
implementation file is not part of the sample, so the behaviour is
modelled from the spec (section 4.4). -/

/-- Result a module construction resolves to: the constructed module
instance (identified by id) or a captured construction error. -/
inductive ModuleResult where
  | moduleVal (id : Nat)
  | errorVal (msg : String)
deriving DecidableEq, Repr

/-- Modelled from the spec: the per-Platform module-bootstrap state behind
`modulesMutex_` (DefaultPlatform.cpp is missing from the sample).
`dispatchCount` counts how often construction work was handed to the
Executor; `result` is the shared future's resolution (`none` while
pending); `pending` holds the onReady callbacks attached before
resolution; `fired` logs every callback invocation with the result it was
given. -/
structure PlatformState where
  triggered : Bool
  dispatchCount : Nat
  result : Option ModuleResult
  pending : List Nat
  fired : List (Nat × ModuleResult)
deriving DecidableEq, Repr

/-- The Platform before any `CreateFilterEngineAsync` call. -/
def pinit : PlatformState :=
  { triggered := false, dispatchCount := 0, result := none,
    pending := [], fired := [] }

/-- An observable event at the Platform: a `CreateFilterEngineAsync` call
registering callback `cb`, or the dispatched construction work completing
with a result.  Concurrency reduces to an arbitrary interleaving because
every transition runs under `modulesMutex_`. -/
inductive PEvent where
  | createModule (cb : Nat)
  | complete (r : ModuleResult)
deriving DecidableEq, Repr

/-- Modelled from the spec: one atomic transition of the bootstrap state
machine.  A call triggers the construction dispatch exactly when none is in
flight, then attaches its callback to the shared future — inline (fired at
once) if the future is already resolved, queued otherwise.  Completion
resolves the future once and fires every queued callback with that one
result; a completion without a dispatched construction, or after the
future already resolved, cannot arise and is ignored. -/
def pstep (s : PlatformState) (e : PEvent) : PlatformState :=
  match e with
  | .createModule cb =>
    let s' :=
      if s.triggered then s
      else { s with triggered := true, dispatchCount := s.dispatchCount + 1 }
    match s'.result with
    | some r => { s' with fired := s'.fired ++ [(cb, r)] }
    | none => { s' with pending := s'.pending ++ [cb] }
  | .complete r =>
    match s.result with
    | some _ => s
    | none =>
      if s.triggered then
        { s with result := some r,
                 fired := s.fired ++ s.pending.map (fun cb => (cb, r)),
                 pending := [] }
      else s

/-- Run of the Platform over a sequence of events. -/
def prun (evs : List PEvent) : PlatformState :=
  evs.foldl pstep pinit

/-- How many times callback `cb` was supplied across the events. -/
def callCount (evs : List PEvent) (cb : Nat) : Nat :=
  (evs.filter (fun e => e = .createModule cb)).length

/-- How many invocations callback `cb` has received. -/
def firedCount (s : PlatformState) (cb : Nat) : Nat :=
  (s.fired.filter (fun p => p.1 = cb)).length

/-- How many attachments of callback `cb` still await resolution. -/
def pendingCount (s : PlatformState) (cb : Nat) : Nat :=
  (s.pending.filter (fun c => c = cb)).length

/-- Invariant of the bootstrap state machine: the dispatch count tracks
whether construction was triggered, a resolved future implies the
construction was triggered and no callback is still pending, and every
recorded callback invocation carries the future's resolution. -/
def PInv (s : PlatformState) : Prop :=
  (s.dispatchCount = if s.triggered then 1 else 0) ∧
  (∀ r, s.result = some r → s.triggered = true ∧ s.pending = []) ∧
  (∀ p ∈ s.fired, s.result = some p.2)

/-! Script-source deduplication (DefaultPlatform).  The header shows the
`std::set<std::string> evaluatedJsSources_` and its dedicated
`evaluatedJsSourcesMutex_`; the evaluate callback's body is modelled from
the spec. -/

/-- Modelled from the spec: state of the evaluated-source registry —
the recorded identifiers plus a log of the evaluations actually
performed. -/
structure EvalState where
  evaluatedJsSources : List String
  evalLog : List String
deriving DecidableEq, Repr

/-- The registry before any evaluation. -/
def einit : EvalState := { evaluatedJsSources := [], evalLog := [] }

/-- Modelled from the spec: the evaluate callback consults the registry
under `evaluatedJsSourcesMutex_` before evaluating, skips an identifier
already recorded, and records the identifier after a successful
evaluation. -/
def evaluateSource (s : EvalState) (id : String) : EvalState :=
  if id ∈ s.evaluatedJsSources then s
  else { evaluatedJsSources := s.evaluatedJsSources ++ [id],
         evalLog := s.evalLog ++ [id] }

/-- Run of the registry over a sequence of requested source identifiers. -/
def erunEval (ids : List String) : EvalState :=
  ids.foldl evaluateSource einit

/-- The two mutexes of DefaultPlatform.h (lines 61 and 64): module
construction and source evaluation are guarded independently. -/
inductive LockId where
  | modulesMutex
  | evaluatedJsSourcesMutex
deriving DecidableEq, Repr

/-- Lock footprint of a `CreateFilterEngineAsync` transition. -/
def locksOfCreateModule : List LockId := [.modulesMutex]

/-- Lock footprint of an evaluate-callback transition. -/
def locksOfEvaluateSource : List LockId := [.evaluatedJsSourcesMutex]

/-! Executor.  `src/include/AdblockPlus/IExecutor.h` gives only the
interface and its contract ("Task will be never executed after Stop is
called", "Stop accepting tasks"); the default executor's implementation is
not in the sample, so it is modelled from the spec (section 4.1). -/

/-- Modelled from the spec: executor state — whether `Stop()` has been
called, the tasks scheduled but not yet started, and the tasks that have
run. -/
structure ExecState where
  stopped : Bool
  queue : List Nat
  executed : List Nat
deriving DecidableEq, Repr

/-- The executor before any call. -/
def xinit : ExecState := { stopped := false, queue := [], executed := [] }

/-- An observable event at the executor: a `Dispatch(task)` call, a
`Stop()` call, or a worker starting the next queued task. -/
inductive XEvent where
  | dispatch (t : Nat)
  | stop
  | runNext
deriving DecidableEq, Repr

/-- Modelled from the spec: one atomic executor transition.  `Dispatch`
schedules the task unless stopped (a stopped executor no longer accepts
work); `Stop` marks the executor stopped; a worker starts
queued-but-not-yet-started work only while not stopped. -/
def xstep (s : ExecState) (e : XEvent) : ExecState :=
  match e with
  | .dispatch t => if s.stopped then s else { s with queue := s.queue ++ [t] }
  | .stop => { s with stopped := true }
  | .runNext =>
    if s.stopped then s
    else
      match s.queue with
      | [] => s
      | t :: rest => { s with queue := rest, executed := s.executed ++ [t] }

/-- Run of the executor over a sequence of events. -/
def xrun (evs : List XEvent) : ExecState :=
  evs.foldl xstep xinit

/-! Theorems for the claims. -/

/-- C10: the type predicates of JsValue.cpp do not distinguish primitives
from their wrapper objects — `IsString` holds exactly on string primitives
and `String` wrapper objects, `IsNumber` exactly on number primitives and
`Number` wrapper objects, `IsBool` exactly on boolean primitives and
`Boolean` wrapper objects. -/
theorem v8IsStringObject_iff (h : Heap) (w : V8Value) :
    v8IsStringObject h w = true ↔
      ∃ a o s, w = .obj a ∧ h[a]? = some o ∧ o.kind = .stringObject s := by
  cases w with
  | obj a =>
    rcases hg : h[a]? with _ | o
    · simp [v8IsStringObject, hg]
    · cases hk : o.kind <;> simp [v8IsStringObject, hg, hk]
  | undefined => simp [v8IsStringObject]
  | nullValue => simp [v8IsStringObject]
  | boolean b => simp [v8IsStringObject]
  | number n => simp [v8IsStringObject]
  | str s => simp [v8IsStringObject]

theorem v8IsNumberObject_iff (h : Heap) (w : V8Value) :
    v8IsNumberObject h w = true ↔
      ∃ a o n, w = .obj a ∧ h[a]? = some o ∧ o.kind = .numberObject n := by
  cases w with
  | obj a =>
    rcases hg : h[a]? with _ | o
    · simp [v8IsNumberObject, hg]
    · cases hk : o.kind <;> simp [v8IsNumberObject, hg, hk]
  | undefined => simp [v8IsNumberObject]
  | nullValue => simp [v8IsNumberObject]
  | boolean b => simp [v8IsNumberObject]
  | number n => simp [v8IsNumberObject]
  | str s => simp [v8IsNumberObject]

theorem v8IsBooleanObject_iff (h : Heap) (w : V8Value) :
    v8IsBooleanObject h w = true ↔
      ∃ a o b, w = .obj a ∧ h[a]? = some o ∧ o.kind = .booleanObject b := by
  cases w with
  | obj a =>
    rcases hg : h[a]? with _ | o
    · simp [v8IsBooleanObject, hg]
    · cases hk : o.kind <;> simp [v8IsBooleanObject, hg, hk]
  | undefined => simp [v8IsBooleanObject]
  | nullValue => simp [v8IsBooleanObject]
  | boolean b => simp [v8IsBooleanObject]
  | number n => simp [v8IsBooleanObject]
  | str s => simp [v8IsBooleanObject]

theorem c10_type_predicates_wrapper_insensitive (h : Heap) (w : V8Value) :
    (jsIsString h w = true ↔
      ((∃ s, w = .str s) ∨
       (∃ a o s, w = .obj a ∧ h[a]? = some o ∧ o.kind = .stringObject s))) ∧
    (jsIsNumber h w = true ↔
      ((∃ n, w = .number n) ∨
       (∃ a o n, w = .obj a ∧ h[a]? = some o ∧ o.kind = .numberObject n))) ∧
    (jsIsBool h w = true ↔
      ((∃ b, w = .boolean b) ∨
       (∃ a o b, w = .obj a ∧ h[a]? = some o ∧ o.kind = .booleanObject b))) := by
  refine ⟨?_, ?_, ?_⟩ <;>
    simp only [jsIsString, jsIsNumber, jsIsBool, Bool.or_eq_true,
      v8IsStringObject_iff, v8IsNumberObject_iff, v8IsBooleanObject_iff] <;>
    cases w <;> simp [v8IsString, v8IsNumber, v8IsBoolean]

theorem asList_cases (h : Heap) (w : V8Value) :
    (v8IsArray h w = false ∧
      asList h w = .error ⟨.typeError, "Cannot convert a non-array to list"⟩) ∨
    (∃ es, v8IsArray h w = true ∧ asList h w = .ok es) := by
  cases w with
  | obj a =>
    rcases hg : h[a]? with _ | o
    · simp [asList, v8IsArray, hg]
    · cases hk : o.kind <;> simp [asList, v8IsArray, hg, hk]
  | undefined => simp [asList, v8IsArray]
  | nullValue => simp [asList, v8IsArray]
  | boolean b => simp [asList, v8IsArray]
  | number n => simp [asList, v8IsArray]
  | str s => simp [asList, v8IsArray]

/-- C3: `AsList` fails (and then with a `TypeError`-kind condition) exactly
when the handle is not an array; `AsInt` and `AsDouble` fail (and then with
a `ConversionError`-kind condition) exactly when the engine's numeric
coercion reports a pending exception, and otherwise return the coerced
value. -/
theorem c3_conversion_failure_conditions (h : Heap) (w : V8Value) :
    ((∃ e, asList h w = .error e) ↔ v8IsArray h w = false) ∧
    (∀ e, asList h w = .error e → e.kind = .typeError) ∧
    ((∃ e, asInt h w = .error e) ↔ v8ToNumber h w = none) ∧
    (∀ e, asInt h w = .error e → e.kind = .conversionError) ∧
    (∀ n, v8ToNumber h w = some n → asInt h w = .ok n) ∧
    ((∃ e, asDouble h w = .error e) ↔ v8ToNumber h w = none) ∧
    (∀ e, asDouble h w = .error e → e.kind = .conversionError) ∧
    (∀ n, v8ToNumber h w = some n → asDouble h w = .ok n) := by
  obtain hc := asList_cases h w
  refine ⟨?_, ?_, ?_, ?_, ?_, ?_, ?_, ?_⟩
  · rcases hc with ⟨hf, he⟩ | ⟨es, ht, he⟩
    · exact ⟨fun _ => hf, fun _ => ⟨_, he⟩⟩
    · constructor
      · rintro ⟨e, hee⟩
        rw [he] at hee
        cases hee
      · intro hfalse
        rw [ht] at hfalse
        cases hfalse
  · intro e hee
    rcases hc with ⟨hf, he⟩ | ⟨es, ht, he⟩
    · rw [he] at hee
      cases hee
      rfl
    · rw [he] at hee
      cases hee
  · rcases hv : v8ToNumber h w with _ | n <;> simp [asInt, hv]
  · rcases hv : v8ToNumber h w with _ | n <;> simp [asInt, hv]
  · rcases hv : v8ToNumber h w with _ | n <;> simp [asInt, hv]
  · rcases hv : v8ToNumber h w with _ | n <;> simp [asDouble, hv]
  · rcases hv : v8ToNumber h w with _ | n <;> simp [asDouble, hv]
  · rcases hv : v8ToNumber h w with _ | n <;> simp [asDouble, hv]

/-- Witness for C3: a plain object whose coercion yields 5 converts to 5,
and the non-array failure of `AsList` on the number 3 is `TypeError`-kind. -/
theorem c3_conversion_failure_conditions_witness :
    asInt [HeapObj.mk .plain [] (some 5)] (.obj 0) = .ok 5 ∧
    (JsErr.mk .typeError "Cannot convert a non-array to list").kind = .typeError :=
  ⟨(c3_conversion_failure_conditions [HeapObj.mk .plain [] (some 5)] (.obj 0)).2.2.2.2.1
      5 rfl,
   (c3_conversion_failure_conditions [] (.number 3)).2.1
      ⟨.typeError, "Cannot convert a non-array to list"⟩ rfl⟩

/-- C4: `GetOwnPropertyNames`, `GetProperty` and `SetProperty` fail with a
`TypeError`-kind condition on a non-object receiver, and `GetProperty` on
an object for a key never set succeeds with the runtime's `undefined`. -/
theorem c4_property_access_errors (h : Heap) (w : V8Value) (name : String) :
    (v8IsObject w = false →
      getOwnPropertyNames h w =
        .error ⟨.typeError, "Attempting to get propert list for a non-object"⟩ ∧
      getProperty h w name =
        .error ⟨.typeError, "Attempting to get property of a non-object"⟩ ∧
      (∀ val, setProperty h w name val =
        .error ⟨.typeError, "Attempting to set property on a non-object"⟩)) ∧
    (∀ a o, w = .obj a → h[a]? = some o → lookupProp o name = none →
      getProperty h w name = .ok .undefined ∧ jsIsUndefined V8Value.undefined = true) := by
  constructor
  · intro hobj
    cases w <;>
      first
        | exact ⟨rfl, rfl, fun _ => rfl⟩
        | simp [v8IsObject] at hobj
  · rintro a o rfl hg hl
    refine ⟨?_, rfl⟩
    simp [getProperty, hg, hl]

/-- Witness for C4: `GetProperty` on the number 3 fails with `TypeError`;
on an empty plain object it yields `undefined`. -/
theorem c4_property_access_errors_witness :
    getProperty [] (.number 3) "k" =
      .error ⟨.typeError, "Attempting to get property of a non-object"⟩ ∧
    getProperty [HeapObj.mk .plain [] none] (.obj 0) "k" = .ok .undefined :=
  ⟨((c4_property_access_errors [] (.number 3) "k").1 rfl).2.1,
   ((c4_property_access_errors [HeapObj.mk .plain [] none] (.obj 0) "k").2
      0 (HeapObj.mk .plain [] none) rfl rfl rfl).1⟩

theorem fnBehavior_eq_none_iff (h : Heap) (w : V8Value) :
    fnBehavior h w = none ↔ v8IsFunction h w = false := by
  cases w with
  | obj a =>
    rcases hg : h[a]? with _ | o
    · simp [fnBehavior, v8IsFunction, hg]
    · cases hk : o.kind <;> simp [fnBehavior, v8IsFunction, hg, hk]
  | undefined => simp [fnBehavior, v8IsFunction]
  | nullValue => simp [fnBehavior, v8IsFunction]
  | boolean b => simp [fnBehavior, v8IsFunction]
  | number n => simp [fnBehavior, v8IsFunction]
  | str s => simp [fnBehavior, v8IsFunction]

/-- C5: `Call` fails with a `TypeError`-kind condition when the handle is
not callable, or when the supplied receiver is not an object; an exception
raised by the invoked function is re-surfaced as a `ScriptError`-kind
condition carrying the script's message text (the heap is untouched, so
the runtime stays usable), and a normally returning function yields its
value. -/
theorem c5_call_error_classification (h : Heap) (w thisVal : V8Value) :
    (v8IsFunction h w = false →
      call h w thisVal = .error ⟨.typeError, "Attempting to call a non-function"⟩) ∧
    (v8IsFunction h w = true → v8IsObject thisVal = false →
      call h w thisVal = .error ⟨.typeError, "`this` pointer has to be an object"⟩) ∧
    (∀ a o msg, w = .obj a → h[a]? = some o →
      o.kind = .functionObj (.throwsError msg) → v8IsObject thisVal = true →
      call h w thisVal = .error ⟨.scriptError, msg⟩) ∧
    (∀ a o v, w = .obj a → h[a]? = some o →
      o.kind = .functionObj (.returns v) → v8IsObject thisVal = true →
      call h w thisVal = .ok v) := by
  refine ⟨?_, ?_, ?_, ?_⟩
  · intro hf
    have hb : fnBehavior h w = none := (fnBehavior_eq_none_iff h w).mpr hf
    simp [call, hb]
  · intro hf hto
    rcases hb : fnBehavior h w with _ | beh
    · rw [(fnBehavior_eq_none_iff h w).mp hb] at hf
      cases hf
    · cases beh <;> simp [call, hb, hto]
  · rintro a o msg rfl hg hk hto
    simp [call, fnBehavior, hg, hk, hto]
  · rintro a o v rfl hg hk hto
    simp [call, fnBehavior, hg, hk, hto]

/-- Witness for C5: calling a number is a `TypeError`; calling a function
that raises with message "boom" surfaces a `ScriptError` carrying "boom". -/
theorem c5_call_error_classification_witness :
    call [] (.number 1) (.obj 0) =
      .error ⟨.typeError, "Attempting to call a non-function"⟩ ∧
    call [HeapObj.mk (.functionObj (.throwsError "boom")) [] none] (.obj 0) (.obj 0) =
      .error ⟨.scriptError, "boom"⟩ :=
  ⟨(c5_call_error_classification [] (.number 1) (.obj 0)).1 rfl,
   (c5_call_error_classification
      [HeapObj.mk (.functionObj (.throwsError "boom")) [] none] (.obj 0) (.obj 0)).2.2.1
      0 (HeapObj.mk (.functionObj (.throwsError "boom")) [] none) "boom" rfl rfl rfl rfl⟩

theorem lookup_setAssoc (ps : List (String × V8Value)) (k : String) (v : V8Value) :
    (setAssoc ps k v).lookup k = some v := by
  induction ps with
  | nil => simp [setAssoc]
  | cons p rest ih =>
    obtain ⟨k', v'⟩ := p
    by_cases hk : k' = k
    · subst hk
      simp [setAssoc]
    · have hbeq : (k == k') = false := by
        simp [Ne.symm hk]
      simp [setAssoc, hk, List.lookup, hbeq, ih]

/-- C6: copying a handle builds a fresh persistent cell referencing the
same underlying runtime value, so the two handles are independent: a
property write through the copy is visible through the original, and
destroying either one of the two handles leaves the other's reference (and
the heap) intact. -/
theorem c6_copy_shares_value_independent_refs (rt : Runtime) (v1 : JsValue)
    (iso s a : Nat) (o : HeapObj) (name : String) (val : V8Value)
    (hiso : v1.isolate = some iso)
    (halive : rt.aliveIsolates.contains iso = true)
    (hslot : v1.slot = some s)
    (hs : rt.globals[s]? = some (some (.obj a)))
    (ha : rt.heap[a]? = some o) :
    ((copyAssign rt v1).2.unwrapValue (copyAssign rt v1).1 = some (.obj a) ∧
     v1.unwrapValue (copyAssign rt v1).1 = some (.obj a) ∧
     (copyAssign rt v1).2.slot ≠ v1.slot) ∧
    (∃ rt2, (copyAssign rt v1).2.setPropertyH (copyAssign rt v1).1 name val =
        some (.ok rt2) ∧
      v1.getPropertyH rt2 name = some (.ok val)) ∧
    ((destroy (copyAssign rt v1).1 (copyAssign rt v1).2).1.heap = rt.heap ∧
     v1.unwrapValue (destroy (copyAssign rt v1).1 (copyAssign rt v1).2).1 =
       some (.obj a)) ∧
    ((destroy (copyAssign rt v1).1 v1).1.heap = rt.heap ∧
     (copyAssign rt v1).2.unwrapValue (destroy (copyAssign rt v1).1 v1).1 =
       some (.obj a)) := by
  have hlt : s < rt.globals.length := (List.getElem?_eq_some.mp hs).1
  have huw : v1.unwrapValue rt = some (.obj a) := by
    simp [JsValue.unwrapValue, hslot, hs]
  have hcopy : copyAssign rt v1 =
      ({ rt with globals := rt.globals ++ [some (.obj a)] },
       { isolate := v1.isolate, jsContext := v1.jsContext,
         slot := some rt.globals.length }) := by
    simp [copyAssign, huw]
  have hg1 : (rt.globals ++ [some (V8Value.obj a)])[s]? = some (some (.obj a)) := by
    simp [List.getElem?_append, hlt, hs]
  have hg2 : (rt.globals ++ [some (V8Value.obj a)])[rt.globals.length]? =
      some (some (.obj a)) :=
    List.getElem?_concat_length _ _
  have hne : s ≠ rt.globals.length := Nat.ne_of_lt hlt
  have hmem : iso ∈ rt.aliveIsolates := by
    simpa using halive
  refine ⟨⟨?_, ?_, ?_⟩, ?_, ⟨?_, ?_⟩, ⟨?_, ?_⟩⟩
  · rw [hcopy]
    simp [JsValue.unwrapValue, hg2]
  · rw [hcopy]
    simp [JsValue.unwrapValue, hslot, hg1]
  · rw [hcopy, hslot]
    simp
    omega
  · refine ⟨{ rt with
        heap := rt.heap.set a { o with props := setAssoc o.props name val },
        globals := rt.globals ++ [some (.obj a)] }, ?_, ?_⟩
    · rw [hcopy]
      simp [JsValue.setPropertyH, JsValue.unwrapValue, hg2, setProperty, ha,
        Except.map]
    · have hset : (rt.heap.set a { o with props := setAssoc o.props name val })[a]? =
          some { o with props := setAssoc o.props name val } := by
        have halt : a < rt.heap.length := (List.getElem?_eq_some.mp ha).1
        simp [List.getElem?_set_self, halt]
      simp [JsValue.getPropertyH, JsValue.unwrapValue, hslot, hg1, getProperty,
        hset, lookupProp, lookup_setAssoc]
  · rw [hcopy]
    simp [destroy, hiso, hmem, resetSlot]
  · rw [hcopy]
    simp [destroy, hiso, hmem, resetSlot, JsValue.unwrapValue, hslot,
      List.getElem?_append, hlt, hs]
  · rw [hcopy]
    simp [destroy, hiso, hmem, resetSlot, hslot]
  · rw [hcopy]
    simp [destroy, hiso, hmem, resetSlot, JsValue.unwrapValue, hslot,
      List.getElem?_set_ne hne, hg2]

/-- Witness for C6: a one-object runtime whose single handle is copied; the
copy writes property "k" := 7, the original reads 7 back, and destroying
the copy leaves the original's reference valid. -/
theorem c6_copy_shares_value_independent_refs_witness :
    (copyAssign (Runtime.mk [HeapObj.mk .plain [] none] [some (.obj 0)] [0])
        (JsValue.mk (some 0) (some 0) (some 0))).2.slot ≠
      (JsValue.mk (some 0) (some 0) (some 0) : JsValue).slot ∧
    (∃ rt2, (copyAssign (Runtime.mk [HeapObj.mk .plain [] none] [some (.obj 0)] [0])
          (JsValue.mk (some 0) (some 0) (some 0))).2.setPropertyH
        (copyAssign (Runtime.mk [HeapObj.mk .plain [] none] [some (.obj 0)] [0])
          (JsValue.mk (some 0) (some 0) (some 0))).1 "k" (.number 7) =
        some (.ok rt2) ∧
      (JsValue.mk (some 0) (some 0) (some 0) : JsValue).getPropertyH rt2 "k" =
        some (.ok (.number 7))) := by
  obtain h := c6_copy_shares_value_independent_refs
    (Runtime.mk [HeapObj.mk .plain [] none] [some (.obj 0)] [0])
    (JsValue.mk (some 0) (some 0) (some 0)) 0 0 0 (HeapObj.mk .plain [] none)
    "k" (.number 7) rfl rfl rfl rfl rfl
  exact ⟨h.1.2.2, h.2.1⟩

/-- C7: handle destruction with the owning runtime still alive performs the
runtime operation (context entry plus release of the persistent cell);
with the runtime already torn down it performs no runtime operation at
all, silently skipping the release and leaving everything untouched. -/
theorem c7_destructor_skips_dead_runtime (rt : Runtime) (v : JsValue) (iso : Nat)
    (hiso : v.isolate = some iso) :
    (rt.aliveIsolates.contains iso = true →
      destroy rt v = (resetSlot rt v.slot, { v with slot := none }, true)) ∧
    (rt.aliveIsolates.contains iso = false →
      destroy rt v = (rt, v, false)) := by
  constructor <;> intro halive
  · have hmem : iso ∈ rt.aliveIsolates := by
      simpa using halive
    simp [destroy, hiso, hmem]
  · have hmem : iso ∉ rt.aliveIsolates := by
      simpa using halive
    simp [destroy, hiso, hmem]

/-- Witness for C7: with isolate 0 alive the destructor releases the cell
and reports a runtime operation; with no isolate alive it does nothing. -/
theorem c7_destructor_skips_dead_runtime_witness :
    destroy (Runtime.mk [] [some .undefined] [0]) (JsValue.mk (some 0) (some 0) (some 0)) =
      (resetSlot (Runtime.mk [] [some .undefined] [0]) (some 0),
       JsValue.mk (some 0) (some 0) none, true) ∧
    destroy (Runtime.mk [] [some .undefined] []) (JsValue.mk (some 0) (some 0) (some 0)) =
      (Runtime.mk [] [some .undefined] [], JsValue.mk (some 0) (some 0) (some 0), false) :=
  ⟨(c7_destructor_skips_dead_runtime (Runtime.mk [] [some .undefined] [0])
      (JsValue.mk (some 0) (some 0) (some 0)) 0 rfl).1 rfl,
   (c7_destructor_skips_dead_runtime (Runtime.mk [] [some .undefined] [])
      (JsValue.mk (some 0) (some 0) (some 0)) 0 rfl).2 rfl⟩

/-- C8: move assignment transfers the persistent reference (the same global
cell) to the destination and leaves the moved-from handle an empty
placeholder with its runtime and context references cleared, so destroying
the moved-from handle performs no runtime operation. -/
theorem c8_move_transfers_reference (rt : Runtime) (src : JsValue) :
    (moveAssign src).1 = JsValue.mk src.isolate src.jsContext src.slot ∧
    (moveAssign src).2 = JsValue.mk none none none ∧
    destroy rt (moveAssign src).2 = (rt, (moveAssign src).2, false) :=
  ⟨rfl, rfl, rfl⟩

theorem xstep_stopped (s : ExecState) (e : XEvent) (h : s.stopped = true) :
    xstep s e = s := by
  cases e with
  | dispatch t => simp [xstep, h]
  | stop =>
    cases s
    simp_all [xstep]
  | runNext => simp [xstep, h]

theorem xrun_from_stopped (s : ExecState) (evs : List XEvent) (h : s.stopped = true) :
    evs.foldl xstep s = s := by
  induction evs with
  | nil => rfl
  | cons e rest ih =>
    rw [List.foldl_cons, xstep_stopped s e h]
    exact ih

/-- C2: once `Stop()` has been called, the executor's set of executed tasks
is frozen — a task not yet executed (in particular one only dispatched
after the stop) is never executed; stopping is irreversible (the executor
stays stopped through any later events) and idempotent (a second `Stop()`
changes nothing). -/
theorem c2_stop_is_final (pre post : List XEvent) (t : Nat)
    (hnot : (xrun pre).executed.contains t = false) :
    (xrun (pre ++ XEvent.stop :: post)).executed = (xrun pre).executed ∧
    (xrun (pre ++ XEvent.stop :: post)).executed.contains t = false ∧
    (xrun (pre ++ XEvent.stop :: post)).stopped = true ∧
    xrun (pre ++ XEvent.stop :: XEvent.stop :: post) =
      xrun (pre ++ XEvent.stop :: post) := by
  have h1 : xrun (pre ++ XEvent.stop :: post) = { xrun pre with stopped := true } := by
    rw [xrun, List.foldl_append, List.foldl_cons]
    exact xrun_from_stopped _ post rfl
  have h2 : xrun (pre ++ XEvent.stop :: XEvent.stop :: post) =
      { xrun pre with stopped := true } := by
    rw [xrun, List.foldl_append, List.foldl_cons, List.foldl_cons]
    have hs2 : xstep { xrun pre with stopped := true } XEvent.stop =
        { xrun pre with stopped := true } := xstep_stopped _ _ rfl
    rw [show xstep (List.foldl xstep xinit pre) XEvent.stop =
        { xrun pre with stopped := true } from rfl, hs2]
    exact xrun_from_stopped _ post rfl
  refine ⟨?_, ?_, ?_, ?_⟩
  · rw [h1]
  · rw [h1]
    exact hnot
  · rw [h1]
  · rw [h1, h2]

/-- Witness for C2: a task dispatched right after `Stop()` is never run,
even when a worker polls afterwards. -/
theorem c2_stop_is_final_witness :
    (xrun ([] ++ XEvent.stop :: [XEvent.dispatch 5, XEvent.runNext])).executed =
      (xrun []).executed ∧
    (xrun ([] ++ XEvent.stop :: [XEvent.dispatch 5, XEvent.runNext])).executed.contains 5 =
      false ∧
    (xrun ([] ++ XEvent.stop :: [XEvent.dispatch 5, XEvent.runNext])).stopped = true ∧
    xrun ([] ++ XEvent.stop :: XEvent.stop :: [XEvent.dispatch 5, XEvent.runNext]) =
      xrun ([] ++ XEvent.stop :: [XEvent.dispatch 5, XEvent.runNext]) :=
  c2_stop_is_final [] [XEvent.dispatch 5, XEvent.runNext] 5 rfl

theorem evalRun_count (ids : List String) (s : EvalState) (id : String)
    (hinv : s.evaluatedJsSources.count id =
      if id ∈ s.evaluatedJsSources then 1 else 0)
    (hlog : s.evalLog = s.evaluatedJsSources) :
    (ids.foldl evaluateSource s).evaluatedJsSources.count id =
      (if id ∈ s.evaluatedJsSources ∨ id ∈ ids then 1 else 0) ∧
    (ids.foldl evaluateSource s).evalLog =
      (ids.foldl evaluateSource s).evaluatedJsSources := by
  induction ids generalizing s with
  | nil =>
    refine ⟨?_, hlog⟩
    simpa using hinv
  | cons hd tl ih =>
    rw [List.foldl_cons]
    by_cases hc : hd ∈ s.evaluatedJsSources
    · have hstep : evaluateSource s hd = s := by
        simp [evaluateSource, hc]
      rw [hstep]
      obtain ⟨h1, h2⟩ := ih s hinv hlog
      refine ⟨?_, h2⟩
      rw [h1]
      by_cases hid : id = hd
      · subst hid
        simp [hc]
      · simp [List.mem_cons, hid]
    · have hstep : evaluateSource s hd =
          { evaluatedJsSources := s.evaluatedJsSources ++ [hd],
            evalLog := s.evalLog ++ [hd] } := by
        simp [evaluateSource, hc]
      rw [hstep]
      have hinv2 : (s.evaluatedJsSources ++ [hd]).count id =
          if id ∈ s.evaluatedJsSources ++ [hd] then 1 else 0 := by
        by_cases hid : id = hd
        · subst hid
          have hcount0 : s.evaluatedJsSources.count id = 0 := by
            rw [hinv]
            simp [hc]
          simp [List.count_append, hcount0, List.mem_append]
        · simp [List.count_append, List.count_singleton, List.mem_append, hid, hinv]
      have hlog2 : s.evalLog ++ [hd] = s.evaluatedJsSources ++ [hd] := by
        rw [hlog]
      obtain ⟨h1, h2⟩ := ih ⟨s.evaluatedJsSources ++ [hd], s.evalLog ++ [hd]⟩ hinv2 hlog2
      refine ⟨?_, h2⟩
      rw [h1]
      simp [List.mem_append, List.mem_cons, or_assoc]

/-- C9: for any sequence of requested script-source identifiers, each
identifier requested at least once is evaluated exactly once and recorded
exactly once in the evaluated-source set (dedup under
`evaluatedJsSourcesMutex_`), and that mutex is distinct from the
module-construction mutex (`modulesMutex_`). -/
theorem c9_source_evaluation_dedup (ids : List String) (id : String) :
    ((erunEval ids).evalLog.count id = if id ∈ ids then 1 else 0) ∧
    ((erunEval ids).evaluatedJsSources.count id = if id ∈ ids then 1 else 0) ∧
    List.Disjoint locksOfEvaluateSource locksOfCreateModule := by
  obtain ⟨h1, h2⟩ := evalRun_count ids einit id (by simp [einit]) rfl
  refine ⟨?_, ?_, ?_⟩
  · rw [erunEval, h2, h1]
    simp [einit]
  · rw [erunEval, h1]
    simp [einit]
  · intro x hx hy
    simp [locksOfEvaluateSource] at hx
    rw [hx] at hy
    simp [locksOfCreateModule] at hy

theorem pstep_inv (s : PlatformState) (e : PEvent) (h : PInv s) : PInv (pstep s e) := by
  obtain ⟨h1, h2, h3⟩ := h
  cases e with
  | createModule cb =>
    by_cases ht : s.triggered = true
    · rcases hr : s.result with _ | r
      · have hfired : s.fired = [] := by
          cases hf : s.fired with
          | nil => rfl
          | cons p rest =>
            have := h3 p (by rw [hf]; exact List.mem_cons_self p rest)
            rw [hr] at this
            cases this
        have hps : pstep s (.createModule cb) = { s with pending := s.pending ++ [cb] } := by
          simp [pstep, ht, hr]
        rw [hps]
        refine ⟨by simpa using h1, ?_, ?_⟩
        · intro r0 hr0
          have hr0' : s.result = some r0 := hr0
          rw [hr] at hr0'
          cases hr0'
        · intro p hp
          have hp' : p ∈ s.fired := hp
          rw [hfired] at hp'
          cases hp'
      · have hps : pstep s (.createModule cb) = { s with fired := s.fired ++ [(cb, r)] } := by
          simp [pstep, ht, hr]
        rw [hps]
        refine ⟨by simpa using h1, ?_, ?_⟩
        · intro r0 hr0
          exact h2 r0 hr0
        · intro p hp
          have hp' : p ∈ s.fired ++ [(cb, r)] := hp
          rcases List.mem_append.mp hp' with hpl | hpr
          · exact h3 p hpl
          · have hpe : p = (cb, r) := by simpa using hpr
            subst hpe
            exact hr
    · have hbool : s.triggered = false := by simpa using ht
      rcases hr : s.result with _ | r
      · have hfired : s.fired = [] := by
          cases hf : s.fired with
          | nil => rfl
          | cons p rest =>
            have := h3 p (by rw [hf]; exact List.mem_cons_self p rest)
            rw [hr] at this
            cases this
        have hps : pstep s (.createModule cb) =
            { s with triggered := true, dispatchCount := s.dispatchCount + 1,
                     pending := s.pending ++ [cb] } := by
          simp [pstep, ht, hr]
        rw [hps]
        refine ⟨?_, ?_, ?_⟩
        · have : s.dispatchCount = 0 := by
            rw [h1, hbool]
            rfl
          simp [this]
        · intro r0 hr0
          have hr0' : s.result = some r0 := hr0
          rw [hr] at hr0'
          cases hr0'
        · intro p hp
          have hp' : p ∈ s.fired := hp
          rw [hfired] at hp'
          cases hp'
      · exact absurd (h2 r hr).1 ht
  | complete r =>
    rcases hr : s.result with _ | r0
    · by_cases ht : s.triggered = true
      · have hfired : s.fired = [] := by
          cases hf : s.fired with
          | nil => rfl
          | cons p rest =>
            have := h3 p (by rw [hf]; exact List.mem_cons_self p rest)
            rw [hr] at this
            cases this
        have hps : pstep s (.complete r) =
            { s with result := some r,
                     fired := s.fired ++ s.pending.map (fun cb => (cb, r)),
                     pending := [] } := by
          simp [pstep, ht, hr]
        rw [hps]
        refine ⟨by simpa using h1, ?_, ?_⟩
        · intro r0 hr0
          exact ⟨ht, rfl⟩
        · intro p hp
          have hp' : p ∈ s.fired ++ s.pending.map (fun cb => (cb, r)) := hp
          rw [hfired] at hp'
          simp only [List.nil_append] at hp'
          obtain ⟨c, hc, hpc⟩ := List.mem_map.mp hp'
          rw [← hpc]
      · have hps : pstep s (.complete r) = s := by
          simp [pstep, ht, hr]
        rw [hps]
        exact ⟨h1, h2, h3⟩
    · have hps : pstep s (.complete r) = s := by
        simp [pstep, hr]
      rw [hps]
      exact ⟨h1, h2, h3⟩

theorem prun_inv (evs : List PEvent) (s : PlatformState) (h : PInv s) :
    PInv (evs.foldl pstep s) := by
  induction evs generalizing s with
  | nil => exact h
  | cons e rest ih =>
    rw [List.foldl_cons]
    exact ih _ (pstep_inv s e h)

theorem pstep_triggered_mono (s : PlatformState) (e : PEvent) (h : s.triggered = true) :
    (pstep s e).triggered = true := by
  cases e with
  | createModule cb => rcases hr : s.result with _ | r <;> simp [pstep, h, hr]
  | complete r => rcases hr : s.result with _ | r0 <;> simp [pstep, h, hr]

theorem prun_triggered_mono (evs : List PEvent) (s : PlatformState)
    (h : s.triggered = true) : (evs.foldl pstep s).triggered = true := by
  induction evs generalizing s with
  | nil => exact h
  | cons e rest ih =>
    rw [List.foldl_cons]
    exact ih _ (pstep_triggered_mono s e h)

theorem pstep_createModule_triggered (s : PlatformState) (cb : Nat) :
    (pstep s (.createModule cb)).triggered = true := by
  rcases hr : s.result with _ | r <;> by_cases ht : s.triggered = true <;>
    simp [pstep, hr, ht]

theorem prun_triggered_of_mem (evs : List PEvent) (s : PlatformState) (cb : Nat)
    (hmem : PEvent.createModule cb ∈ evs) : (evs.foldl pstep s).triggered = true := by
  induction evs generalizing s with
  | nil => cases hmem
  | cons e rest ih =>
    rw [List.foldl_cons]
    rcases List.mem_cons.mp hmem with he | he
    · rw [← he]
      exact prun_triggered_mono rest _ (pstep_createModule_triggered s cb)
    · exact ih _ he

theorem pstep_count (s : PlatformState) (e : PEvent) (cb : Nat) :
    firedCount (pstep s e) cb + pendingCount (pstep s e) cb =
      firedCount s cb + pendingCount s cb +
        (if e = PEvent.createModule cb then 1 else 0) := by
  cases e with
  | createModule c =>
    by_cases ht : s.triggered = true <;> rcases hr : s.result with _ | r <;>
      by_cases hc : c = cb
    · subst hc
      simp [pstep, ht, hr, firedCount, pendingCount, List.filter_append,
        List.filter_singleton]
      omega
    · simp [pstep, ht, hr, firedCount, pendingCount, List.filter_append,
        List.filter_singleton, hc]
    · subst hc
      simp [pstep, ht, hr, firedCount, pendingCount, List.filter_append,
        List.filter_singleton]
      omega
    · simp [pstep, ht, hr, firedCount, pendingCount, List.filter_append,
        List.filter_singleton, hc]
    · subst hc
      simp [pstep, ht, hr, firedCount, pendingCount, List.filter_append,
        List.filter_singleton]
      omega
    · simp [pstep, ht, hr, firedCount, pendingCount, List.filter_append,
        List.filter_singleton, hc]
    · subst hc
      simp [pstep, ht, hr, firedCount, pendingCount, List.filter_append,
        List.filter_singleton]
      omega
    · simp [pstep, ht, hr, firedCount, pendingCount, List.filter_append,
        List.filter_singleton, hc]
  | complete r =>
    rcases hr : s.result with _ | r0
    · by_cases ht : s.triggered = true
      · have hmap : ((s.pending.map (fun c => (c, r))).filter
            (fun p => decide (p.1 = cb))) =
            (s.pending.filter (fun c => decide (c = cb))).map (fun c => (c, r)) := by
          rw [List.filter_map]
          rfl
        simp [pstep, ht, hr, firedCount, pendingCount, List.filter_append, hmap]
      · simp [pstep, ht, hr, firedCount, pendingCount]
    · simp [pstep, hr, firedCount, pendingCount]

theorem prun_count (evs : List PEvent) (s : PlatformState) (cb : Nat) :
    firedCount (evs.foldl pstep s) cb + pendingCount (evs.foldl pstep s) cb =
      firedCount s cb + pendingCount s cb + callCount evs cb := by
  induction evs generalizing s with
  | nil => simp [callCount]
  | cons e rest ih =>
    rw [List.foldl_cons, ih (pstep s e)]
    have hcc : callCount (e :: rest) cb =
        (if e = PEvent.createModule cb then 1 else 0) + callCount rest cb := by
      by_cases he : e = PEvent.createModule cb
      · simp [callCount, he]
        omega
      · simp [callCount, he]
    have hps := pstep_count s e cb
    omega

/-- C1: over any sequence of `CreateFilterEngineAsync` calls interleaved
arbitrarily with module resolution, construction work is dispatched to the
Executor at most once — exactly once when at least one call was made —
every recorded callback invocation carries the one shared resolution, and
once the shared future resolves every supplied callback has fired exactly
as many times as it was supplied (hence exactly once per registration),
always with that same module or error. -/
theorem c1_construction_dispatched_once (evs : List PEvent) :
    ((prun evs).dispatchCount ≤ 1) ∧
    ((∃ cb, PEvent.createModule cb ∈ evs) → (prun evs).dispatchCount = 1) ∧
    (∀ p ∈ (prun evs).fired, (prun evs).result = some p.2) ∧
    (∀ cb r, (prun evs).result = some r →
      firedCount (prun evs) cb = callCount evs cb) := by
  have hinit : PInv pinit := by
    refine ⟨rfl, ?_, ?_⟩ <;> simp [pinit]
  obtain ⟨h1, h2, h3⟩ := prun_inv evs pinit hinit
  refine ⟨?_, ?_, h3, ?_⟩
  · show (evs.foldl pstep pinit).dispatchCount ≤ 1
    rw [h1]
    split <;> omega
  · rintro ⟨cb, hmem⟩
    show (evs.foldl pstep pinit).dispatchCount = 1
    rw [h1, prun_triggered_of_mem evs pinit cb hmem]
    simp
  · intro cb r hres
    have hcnt := prun_count evs pinit cb
    have hpend : (evs.foldl pstep pinit).pending = [] := (h2 r hres).2
    have hp0 : pendingCount (evs.foldl pstep pinit) cb = 0 := by
      simp [pendingCount, hpend]
    have hstart : firedCount pinit cb = 0 ∧ pendingCount pinit cb = 0 := by
      constructor <;> simp [firedCount, pendingCount, pinit]
    show firedCount (evs.foldl pstep pinit) cb = callCount evs cb
    omega

/-- Witness for C1: a call, the resolution, then a late call — exactly one
dispatch, and the late caller's callback fires exactly once. -/
theorem c1_construction_dispatched_once_witness :
    (prun [PEvent.createModule 1, PEvent.complete (.moduleVal 7),
      PEvent.createModule 2]).dispatchCount = 1 ∧
    firedCount (prun [PEvent.createModule 1, PEvent.complete (.moduleVal 7),
      PEvent.createModule 2]) 2 =
      callCount [PEvent.createModule 1, PEvent.complete (.moduleVal 7),
        PEvent.createModule 2] 2 :=
  ⟨(c1_construction_dispatched_once
      [PEvent.createModule 1, PEvent.complete (.moduleVal 7),
        PEvent.createModule 2]).2.1 ⟨1, by simp⟩,
   (c1_construction_dispatched_once
      [PEvent.createModule 1, PEvent.complete (.moduleVal 7),
        PEvent.createModule 2]).2.2.2 2 (.moduleVal 7) (by rfl)⟩

end AdblockPlus
